import Mathlib

/-!
Verification of the report-acquisition and metric-derivation pipeline of
`meta_ads_dashboard` (source: `src/mhc.py`).

The pandas dataframes are embedded shallowly as lists of records:

* `FbRow` is one parsed report row (the dataframe built by
  `request_report` / `parse_csv_content`, after the column renames of
  `main`, lines 256-271: `Amount spent (INR) -> spend`,
  `Link clicks -> clicks`, `Reporting starts -> Date`).
* `MapRow` is one record of the mapping-reference worksheet fetched by
  `get_mapping_ref`.
* `ERow` is a row of the merged (enriched) dataframe produced by
  `pd.merge(..., how='left')` (lines 232-235); descriptive attributes are
  `Option String`, `none` standing for the NaN of an unmatched left row.

Numbers are embedded as `ℚ` (dates as `ℤ` day numbers).  Float division by
zero, which pandas propagates as `inf`/`-inf`/`NaN`, is modelled exactly by
the sum type `MetricVal`; finite float arithmetic is modelled by exact
rational arithmetic.  `numpy`/pandas `.round()` rounds half to even, which
`rnd` reproduces.
-/

namespace MetaAds

/-- Round half to even (the rounding used by pandas `.round()` on a
`float64` column), as an integer result. -/
def rnd (x : ℚ) : ℤ :=
  if x - ⌊x⌋ < 1/2 then ⌊x⌋
  else if (1:ℚ)/2 < x - ⌊x⌋ then ⌊x⌋ + 1
  else if 2 ∣ ⌊x⌋ then ⌊x⌋ else ⌊x⌋ + 1

/-- Round half to even, staying in `ℚ` (pandas `.round()` keeps dtype
float). -/
def rndQ (x : ℚ) : ℚ := (rnd x : ℚ)

/-- Round to two decimal places, half to even (pandas `.round(2)`). -/
def rnd2 (x : ℚ) : ℚ := rndQ (x * 100) / 100

/-- Value of a float-typed metric cell: either a finite value (modelled
exactly as a rational) or one of the non-finite IEEE values that pandas
division by zero produces. -/
inductive MetricVal where
  | fin : ℚ → MetricVal
  | nan : MetricVal
  | posInf : MetricVal
  | negInf : MetricVal
deriving DecidableEq

/-- Float division as pandas performs it on dataframe columns:
`0/0 = NaN`, `a/0 = ±inf` for `a ≠ 0`, exact rational division otherwise. -/
def fdiv (a b : ℚ) : MetricVal :=
  if b = 0 then
    if a = 0 then .nan else if 0 < a then .posInf else .negInf
  else .fin (a / b)

/-- Multiplication of a metric cell by a finite constant (`* 100`,
`* 1000` in the CTR/CPM formulas); non-finite values propagate as in
IEEE arithmetic. -/
def MetricVal.scale (c : ℚ) : MetricVal → MetricVal
  | .fin q => .fin (q * c)
  | .nan => .nan
  | .posInf => if 0 < c then .posInf else if c < 0 then .negInf else .nan
  | .negInf => if 0 < c then .negInf else if c < 0 then .posInf else .nan

/-- Rounding of a metric cell to two decimals (`.round(2)`); `NaN` and
`±inf` are fixed points. -/
def MetricVal.round2 : MetricVal → MetricVal
  | .fin q => .fin (rnd2 q)
  | v => v

/-- True iff the cell holds a finite value. -/
def MetricVal.isFinite : MetricVal → Bool
  | .fin _ => true
  | _ => false

/-- Source line 541: `CTR = ((clicks / Impressions) * 100).round(2)`. -/
def ctrOf (clicks impressions : ℚ) : MetricVal :=
  ((fdiv clicks impressions).scale 100).round2

/-- Source line 542: `CPM = ((spend / Impressions) * 1000).round(2)`. -/
def cpmOf (spend impressions : ℚ) : MetricVal :=
  ((fdiv spend impressions).scale 1000).round2

/-- Source line 543: `ROAS = (Revenue / spend).round(2)`. -/
def roasOf (revenue spend : ℚ) : MetricVal :=
  (fdiv revenue spend).round2

/-- One row of the parsed report dataframe (column names after the renames
of lines 256-271).  `roas` is the `Website purchase ROAS (return on ad
spend)` column; `date` is the `Reporting starts` day. -/
structure FbRow where
  accountName : String
  campaignName : String
  adSetName : String
  adName : String
  date : ℤ
  impressions : ℚ
  clicks : ℚ
  spend : ℚ
  roas : ℚ
deriving DecidableEq

/-- One record of the `Mapping_ref` worksheet (`get_mapping_ref`):
the 4-column composite key plus the descriptive attributes. -/
structure MapRow where
  accountName : String
  campaignName : String
  adSetName : String
  adName : String
  creativeType : String
  creativeTheme : String
  productCat : String
  influencerName : String
  campaignObjective : String
deriving DecidableEq

/-- One row of an enriched (merged) dataframe.  Descriptive attributes are
`none` when the report row found no mapping record (`how='left'` fills
NaN).  `revenue` is the `Revenue` column added at lines 274-277; before
`postprocess` runs it carries the placeholder `0` (the column does not yet
exist in the source at that point). -/
structure ERow where
  accountName : String
  campaignName : String
  adSetName : String
  adName : String
  date : ℤ
  impressions : ℚ
  clicks : ℚ
  spend : ℚ
  roas : ℚ
  revenue : ℚ
  creativeType : Option String
  creativeTheme : Option String
  productCat : Option String
  influencerName : Option String
  campaignObjective : Option String
deriving DecidableEq

/-- The 4-column composite join key of a report row
(`['Account name','Campaign name','Ad Set Name','Ad name']`). -/
def fbKey (r : FbRow) : String × String × String × String :=
  (r.accountName, r.campaignName, r.adSetName, r.adName)

/-- The 4-column composite join key of a mapping record. -/
def mapKey (m : MapRow) : String × String × String × String :=
  (m.accountName, m.campaignName, m.adSetName, m.adName)

/-- Build the output row of the merge for one left row and the mapping
record it matched (`none` for an unmatched left row: descriptive
attributes become NaN). -/
def enrich (r : FbRow) : Option MapRow → ERow
  | none =>
    ⟨r.accountName, r.campaignName, r.adSetName, r.adName, r.date,
      r.impressions, r.clicks, r.spend, r.roas, 0,
      none, none, none, none, none⟩
  | some m =>
    ⟨r.accountName, r.campaignName, r.adSetName, r.adName, r.date,
      r.impressions, r.clicks, r.spend, r.roas, 0,
      some m.creativeType, some m.creativeTheme, some m.productCat,
      some m.influencerName, some m.campaignObjective⟩

/-- All mapping records whose composite key equals the report row's key. -/
def matchesFor (M : List MapRow) (r : FbRow) : List MapRow :=
  M.filter (fun m => decide (mapKey m = fbKey r))

/-- Output rows of the merge contributed by one left row: one row per
matching mapping record, or a single row with null attributes when
nothing matches. -/
def mergeRow (M : List MapRow) (r : FbRow) : List ERow :=
  if (matchesFor M r).isEmpty then [enrich r none]
  else (matchesFor M r).map (fun m => enrich r (some m))

/-- Left outer merge on the composite key, as
`pd.merge(report, mapping_ref, on=[4 key columns], how='left')`
(lines 232-235): each left row is kept once per matching right row, and
kept once with null attributes when no right row matches. -/
def leftMerge (R : List FbRow) (M : List MapRow) : List ERow :=
  R.flatMap (mergeRow M)

/-- Lines 274-277: `df['Revenue'] = (df['Website purchase ROAS ...'] *
df['spend']).round()` — the Revenue column is derived from the spend
column as it stands at that point (not yet rounded). -/
def addRevenueCol (rows : List ERow) : List ERow :=
  rows.map (fun r => { r with revenue := rndQ (r.roas * r.spend) })

/-- Lines 280-283: `df['spend'] = df['spend'].round()`. -/
def roundSpendCol (rows : List ERow) : List ERow :=
  rows.map (fun r => { r with spend := rndQ r.spend })

/-- The derivation steps of `main` in source order: Revenue is added
first (lines 274-277), spend is rounded afterwards (lines 280-283). -/
def postprocess (rows : List ERow) : List ERow :=
  roundSpendCol (addRevenueCol rows)

/-- Lines 210-213: the last-30-days view, rows of the fetched table with
`one_month_ago < date ≤ today` (`anchor` is `datetime.now().date()`). -/
def last30Window (anchor : ℤ) (rows : List FbRow) : List FbRow :=
  rows.filter (fun r => decide (anchor - 30 < r.date) && decide (r.date ≤ anchor))

/-- Lines 216-218: the yesterday view, rows with `date = anchor - 1`. -/
def yesterdayWindow (anchor : ℤ) (rows : List FbRow) : List FbRow :=
  rows.filter (fun r => decide (r.date = anchor - 1))

/-- Lines 220-223: the last-7-days view, rows with
`seven_days_ago < date ≤ today`. -/
def last7Window (anchor : ℤ) (rows : List FbRow) : List FbRow :=
  rows.filter (fun r => decide (anchor - 7 < r.date) && decide (r.date ≤ anchor))

/-- The last-90-days view is the fetched table itself
(`st.session_state.last_90d_data`, line 199): the source applies no
further date filter to it. -/
def last90Window (_anchor : ℤ) (rows : List FbRow) : List FbRow :=
  rows

/-- Sum of one numeric column over a dataframe (the `'sum'` aggregations
of `.agg`). -/
def sumCol (f : ERow → ℚ) (rows : List ERow) : ℚ :=
  (rows.map f).sum

/-- The distinct dates of a dataframe, the group keys of
`.groupby('Date')`. -/
def datesOf (rows : List ERow) : List ℤ :=
  (rows.map ERow.date).dedup

/-- Lines 532-537: `filtered_data.groupby('Date')` — each distinct date
paired with the rows carrying it. -/
def groupByDate (rows : List ERow) : List (ℤ × List ERow) :=
  (datesOf rows).map (fun d => (d, rows.filter (fun r => decide (r.date = d))))

/-- Sum of the per-group sums of one column across all groups of the
date partition. -/
def groupTotal (f : ERow → ℚ) (rows : List ERow) : ℚ :=
  ((groupByDate rows).map (fun g => sumCol f g.2)).sum

/-- One row of the `daily_metrics` dataframe (lines 532-543): the
aggregated absolute columns and the three ratio columns computed from
them. -/
structure DailyMetric where
  date : ℤ
  clicks : ℚ
  impressions : ℚ
  spend : ℚ
  revenue : ℚ
  ctr : MetricVal
  cpm : MetricVal
  roasV : MetricVal
deriving DecidableEq

/-- The `daily_metrics` row of one date group: sums of `clicks`,
`Impressions`, `spend`, `Revenue`, then CTR, CPM, ROAS computed on the
aggregated values (lines 532-543). -/
def mkDaily (d : ℤ) (g : List ERow) : DailyMetric :=
  { date := d
    clicks := sumCol ERow.clicks g
    impressions := sumCol ERow.impressions g
    spend := sumCol ERow.spend g
    revenue := sumCol ERow.revenue g
    ctr := ctrOf (sumCol ERow.clicks g) (sumCol ERow.impressions g)
    cpm := cpmOf (sumCol ERow.spend g) (sumCol ERow.impressions g)
    roasV := roasOf (sumCol ERow.revenue g) (sumCol ERow.spend g) }

/-- The whole `daily_metrics` dataframe (lines 532-543). -/
def dailyMetrics (rows : List ERow) : List DailyMetric :=
  (groupByDate rows).map (fun g => mkDaily g.1 g.2)

/-- Pandas `col.isin(sel)` on a possibly-NaN cell: a NaN cell is never a
member; in particular `isin([])` is false everywhere. -/
def isinOpt (sel : List String) : Option String → Bool
  | some v => decide (v ∈ sel)
  | none => false

/-- Lines 848-854, the Product-Category View filter: Account and Campaign
keep the `if selected else True` escape, but the `Product Cat` condition
is `isin(selected_product_categories)` with no escape, and the date-range
bounds are always applied. -/
def tab3Filter (accSel campSel prodSel : List String) (startD endD : ℤ)
    (rows : List ERow) : List ERow :=
  rows.filter (fun r =>
    (if accSel.isEmpty then true else isinOpt accSel (some r.accountName)) &&
    (if campSel.isEmpty then true else isinOpt campSel (some r.campaignName)) &&
    isinOpt prodSel r.productCat &&
    decide (startD ≤ r.date) && decide (r.date ≤ endD))

/-- Split a string at newline characters, keeping empty pieces — Python
`csv_content.split('\n')` (line 96). -/
def splitLinesAux : List Char → List Char → List String
  | [], cur => [String.mk cur.reverse]
  | c :: cs, cur =>
    if c = '\n' then String.mk cur.reverse :: splitLinesAux cs []
    else splitLinesAux cs (c :: cur)

/-- Split a payload into its lines. -/
def splitLines (s : String) : List String :=
  splitLinesAux s.data []

/-- A line is blank iff `line.strip()` is empty, i.e. every character is
whitespace. -/
def isBlank (l : String) : Bool :=
  l.data.all Char.isWhitespace

/-- Line 96: the non-blank lines of the payload
(`[line.strip() for line in csv_content.split('\n') if line.strip()]`
is empty exactly when this list is). -/
def nonBlankLines (content : String) : List String :=
  (splitLines content).filter (fun l => !(isBlank l))

/-- Split one CSV line into fields: comma-delimited, double-quote-quoted,
backslash-escaped (the `delimiter`, `quotechar`, `escapechar` arguments
of `pd.read_csv`, lines 103-109). -/
def splitFieldsAux : List Char → Bool → List Char → List String → List String
  | [], _, cur, acc => (String.mk cur.reverse :: acc).reverse
  | c :: cs, inQ, cur, acc =>
    if c = '\\' then
      match cs with
      | [] => splitFieldsAux [] inQ (c :: cur) acc
      | e :: cs2 => splitFieldsAux cs2 inQ (e :: cur) acc
    else if c = '"' then splitFieldsAux cs (!inQ) cur acc
    else if c = ',' && !inQ then
      splitFieldsAux cs inQ [] (String.mk cur.reverse :: acc)
    else splitFieldsAux cs inQ (c :: cur) acc

/-- Split one CSV line into its fields. -/
def splitCsvLine (l : String) : List String :=
  splitFieldsAux l.data false [] []

/-- The parsed table of a payload: the header row and every data row
whose field count matches the header (rows of a different width are the
bad lines that `on_bad_lines='warn'` skips with a warning). -/
def parseTable (content : String) : List (List String) :=
  match (nonBlankLines content).map splitCsvLine with
  | [] => []
  | header :: rows =>
    header :: rows.filter (fun r => decide (r.length = header.length))

/-- Function `parse_csv_content` (lines 92-114): a payload with no
non-blank line is reported as an error and yields `None`; otherwise the
payload is parsed into a table. -/
def parse_csv_content (content : String) : Option (List (List String)) :=
  if (nonBlankLines content).isEmpty then none
  else some (parseTable content)

/-- The account loop of lines 193-196: each per-account fetch result is
appended only when it is not `None`. -/
def mergeAccountReports : List (Option (List FbRow)) → List (List FbRow)
  | [] => []
  | none :: rest => mergeAccountReports rest
  | some df :: rest => df :: mergeAccountReports rest

/-- Line 199: `pd.concat(dfs, ignore_index=True)` over the collected
per-account tables.  When every fetch failed, `dfs` is empty and
`pd.concat([])` raises `ValueError: No objects to concatenate`, which
`main` does not catch at that point; `none` models that error outcome,
`some` the concatenated table otherwise. -/
def combinedReport (results : List (Option (List FbRow))) : Option (List FbRow) :=
  if (mergeAccountReports results).isEmpty then none
  else some (mergeAccountReports results).flatten

/-- Concrete report table for the join-cardinality witness. -/
def sampleR : List FbRow :=
  [⟨"A", "C1", "S1", "Ad1", 1, 100, 10, 50, 2⟩]

/-- Concrete mapping table (unique keys) for the join-cardinality
witness. -/
def sampleM : List MapRow :=
  [⟨"A", "C1", "S1", "Ad1", "image", "festive", "shoes", "inf1", "sales"⟩,
   ⟨"A", "C2", "S2", "Ad2", "video", "plain", "bags", "inf2", "reach"⟩]

/-- Concrete enriched row with raw spend 2/5 and ROAS factor 10,
separating `round(roas * spend)` from `round(roas * round(spend))`. -/
def r0 : ERow :=
  ⟨"acct", "camp", "set", "ad", 0, 0, 0, 2/5, 10, 0,
   none, none, none, none, none⟩

/-- Concrete enriched row with zero impressions (and zero clicks and
spend) on day 5. -/
def z0 : ERow :=
  ⟨"acct", "camp", "set", "ad", 5, 0, 0, 0, 0, 0,
   none, none, none, none, none⟩

/-- Concrete report row dated day 9, for the window-containment witness
anchored at day 10. -/
def rW : FbRow :=
  ⟨"A", "C", "S", "Ad", 9, 0, 0, 0, 0⟩

/-- Rounding a value that is already an integer is the identity. -/
theorem rnd_intCast (n : ℤ) : rnd (n : ℚ) = n := by
  rw [rnd, Int.floor_intCast, sub_self]
  norm_num

/-- Rounding of 0. -/
theorem rnd_zero : rnd 0 = 0 := by
  simpa using rnd_intCast 0

/-- Rounding of 4. -/
theorem rnd_four : rnd 4 = 4 := by
  simpa using rnd_intCast 4

/-- Rounding of 2/5 gives 0. -/
theorem rnd_two_fifths : rnd (2/5 : ℚ) = 0 := by
  have hf : ⌊(2/5 : ℚ)⌋ = 0 := by
    rw [Int.floor_eq_iff]
    norm_num
  rw [rnd, hf]
  norm_num

/-- Rounding to two decimals fixes whether a cell is finite. -/
theorem isFinite_round2 (v : MetricVal) : v.round2.isFinite = v.isFinite := by
  cases v <;> rfl

/-- Scaling a non-finite cell never makes it finite. -/
theorem isFinite_scale_of_nonfinite (c : ℚ) (v : MetricVal)
    (h : v.isFinite = false) : (v.scale c).isFinite = false := by
  cases v with
  | fin q => simp [MetricVal.isFinite] at h
  | nan => rfl
  | posInf =>
    simp only [MetricVal.scale]
    split_ifs <;> rfl
  | negInf =>
    simp only [MetricVal.scale]
    split_ifs <;> rfl

/-- Division by a zero denominator never yields a finite cell. -/
theorem fdiv_zero_nonfinite (a : ℚ) : (fdiv a 0).isFinite = false := by
  rw [fdiv, if_pos rfl]
  split_ifs <;> rfl

/-- Under unique mapping keys, at most one mapping record matches any
report row. -/
theorem matchesFor_length_le_one (M : List MapRow) (r : FbRow)
    (h : (M.map mapKey).Nodup) : (matchesFor M r).length ≤ 1 := by
  induction M with
  | nil => simp [matchesFor]
  | cons m M ih =>
    rw [List.map_cons, List.nodup_cons] at h
    by_cases hm : mapKey m = fbKey r
    · have hnil : M.filter (fun m2 => decide (mapKey m2 = fbKey r)) = [] := by
        apply List.filter_eq_nil_iff.mpr
        intro m2 hm2
        simp only [decide_eq_true_eq]
        intro heq
        exact h.1 (by rw [hm, ← heq]; exact List.mem_map_of_mem mapKey hm2)
      simp [matchesFor, List.filter_cons, hm, hnil]
    · have : matchesFor (m :: M) r = matchesFor M r := by
        simp [matchesFor, List.filter_cons, hm]
      rw [this]
      exact ih h.2

/-- Each left row contributes exactly one merged row when the mapping
keys are unique. -/
theorem mergeRow_length (M : List MapRow) (r : FbRow)
    (h : (M.map mapKey).Nodup) : (mergeRow M r).length = 1 := by
  by_cases he : (matchesFor M r).isEmpty
  · simp [mergeRow, he]
  · have h1 := matchesFor_length_le_one M r h
    have h2 : matchesFor M r ≠ [] := by simpa [List.isEmpty_iff] using he
    have h3 : 0 < (matchesFor M r).length := List.length_pos.mpr h2
    rw [mergeRow, if_neg he, List.length_map]
    omega

/-- Cardinality of the left merge under unique mapping keys. -/
theorem leftMerge_length (R : List FbRow) (M : List MapRow)
    (h : (M.map mapKey).Nodup) : (leftMerge R M).length = R.length := by
  induction R with
  | nil => rfl
  | cons r R ih =>
    rw [leftMerge, List.flatMap_cons, List.length_append, mergeRow_length M r h]
    rw [leftMerge] at ih
    rw [ih, List.length_cons]
    omega

/-- An unmatched report row survives the merge with null attributes. -/
theorem leftMerge_unmatched (R : List FbRow) (M : List MapRow) (r : FbRow)
    (hr : r ∈ R) (hm : matchesFor M r = []) :
    enrich r none ∈ leftMerge R M := by
  apply List.mem_flatMap.mpr
  exact ⟨r, hr, by simp [mergeRow, hm]⟩

/-- Splitting a column sum along a Boolean predicate. -/
theorem sumCol_filter_split (p : ERow → Bool) (f : ERow → ℚ) (l : List ERow) :
    sumCol f (l.filter p) + sumCol f (l.filter (fun r => !(p r))) = sumCol f l := by
  induction l with
  | nil => simp [sumCol]
  | cons a l ih =>
    cases h : p a with
    | false =>
      have e1 : (a :: l).filter p = l.filter p := by simp [List.filter_cons, h]
      have e2 : (a :: l).filter (fun r => !(p r)) = a :: l.filter (fun r => !(p r)) := by
        simp [List.filter_cons, h]
      rw [e1, e2]
      simp only [sumCol, List.map_cons, List.sum_cons] at ih ⊢
      rw [← ih]
      ring
    | true =>
      have e1 : (a :: l).filter p = a :: l.filter p := by simp [List.filter_cons, h]
      have e2 : (a :: l).filter (fun r => !(p r)) = l.filter (fun r => !(p r)) := by
        simp [List.filter_cons, h]
      rw [e1, e2]
      simp only [sumCol, List.map_cons, List.sum_cons] at ih ⊢
      rw [← ih]
      ring

/-- Summing the per-key sums over a duplicate-free list of keys covering
every row gives the total column sum. -/
theorem sum_over_nodup_keys (f : ERow → ℚ) (keys : List ℤ) (rows : List ERow)
    (hnd : keys.Nodup) (hcov : ∀ r ∈ rows, r.date ∈ keys) :
    (keys.map (fun d => sumCol f (rows.filter (fun r => decide (r.date = d))))).sum
      = sumCol f rows := by
  induction keys generalizing rows with
  | nil =>
    have : rows = [] := by
      cases rows with
      | nil => rfl
      | cons r rs => exact absurd (hcov r (List.mem_cons_self r rs)) (List.not_mem_nil r.date)
    subst this
    simp [sumCol]
  | cons d ds ih =>
    rw [List.nodup_cons] at hnd
    have hmapeq : ∀ d2 ∈ ds,
        rows.filter (fun r => decide (r.date = d2))
          = (rows.filter (fun r => !(decide (r.date = d)))).filter
              (fun r => decide (r.date = d2)) := by
      intro d2 hd2
      have hne : d2 ≠ d := fun hcon => hnd.1 (hcon ▸ hd2)
      rw [List.filter_filter]
      apply List.filter_congr
      intro r _
      by_cases hr : r.date = d2
      · simp [hr, hne]
      · simp [hr]
    have hcov2 : ∀ r ∈ rows.filter (fun r => !(decide (r.date = d))), r.date ∈ ds := by
      intro r hr
      have hsplit := List.mem_filter.mp hr
      have hrd : r.date ≠ d := by simpa using hsplit.2
      cases List.mem_cons.mp (hcov r hsplit.1) with
      | inl hcon => exact absurd hcon hrd
      | inr hmem => exact hmem
    have hmap2 :
        List.map (fun d2 => sumCol f (rows.filter (fun r => decide (r.date = d2)))) ds
          = List.map (fun d2 => sumCol f
              ((rows.filter (fun r => !(decide (r.date = d)))).filter
                (fun r => decide (r.date = d2)))) ds :=
      List.map_congr_left (fun d2 hd2 => by rw [hmapeq d2 hd2])
    rw [List.map_cons, List.sum_cons, hmap2,
        ih (rows.filter (fun r => !(decide (r.date = d)))) hnd.2 hcov2]
    exact sumCol_filter_split (fun r => decide (r.date = d)) f rows

/-- The per-date group sums of a column add up to the ungrouped total. -/
theorem groupTotal_eq_sumCol (f : ERow → ℚ) (rows : List ERow) :
    groupTotal f rows = sumCol f rows := by
  rw [groupTotal, groupByDate, List.map_map]
  exact sum_over_nodup_keys f (datesOf rows) rows
    (List.nodup_dedup _)
    (fun r hr => List.mem_dedup.mpr (List.mem_map_of_mem ERow.date hr))

/-- The Revenue column of the processed table is computed from the raw
spend column. -/
theorem postprocess_revenue_map (rows : List ERow) :
    (postprocess rows).map ERow.revenue
      = rows.map (fun r => rndQ (r.roas * r.spend)) := by
  unfold postprocess roundSpendCol addRevenueCol
  rw [List.map_map, List.map_map]
  rfl

/-- The spend column of the processed table is the rounded raw spend. -/
theorem postprocess_spend_map (rows : List ERow) :
    (postprocess rows).map ERow.spend = rows.map (fun r => rndQ r.spend) := by
  unfold postprocess roundSpendCol addRevenueCol
  rw [List.map_map, List.map_map]
  rfl

/-- The account loop collects exactly the successful fetch results, in
order. -/
theorem mergeAccountReports_eq_filterMap (results : List (Option (List FbRow))) :
    mergeAccountReports results = results.filterMap (fun x => x) := by
  induction results with
  | nil => rfl
  | cons o rest ih =>
    cases o <;> simp [mergeAccountReports, List.filterMap_cons, ih]

/-- When at least one fetch succeeded, the collected list of tables is
non-empty. -/
theorem mergeAccountReports_not_isEmpty (results : List (Option (List FbRow)))
    (h : results.any Option.isSome = true) :
    (mergeAccountReports results).isEmpty = false := by
  rcases List.any_eq_true.mp h with ⟨o, ho, hs⟩
  cases o with
  | none => simp at hs
  | some t =>
    rw [mergeAccountReports_eq_filterMap]
    have hmem : t ∈ results.filterMap (fun x => x) :=
      List.mem_filterMap.mpr ⟨some t, ho, rfl⟩
    cases hfm : results.filterMap (fun x => x) with
    | nil => rw [hfm] at hmem; exact absurd hmem (List.not_mem_nil t)
    | cons a l => rfl

/-- C1: for every report table and every mapping table with a
duplicate-free composite key, the left merge yields exactly one row per
report row, and an unmatched report row is preserved with null
descriptive attributes. -/
theorem left_join_preserves_cardinality (R : List FbRow) (M : List MapRow)
    (h : (M.map mapKey).Nodup) :
    (leftMerge R M).length = R.length
  ∧ ∀ r ∈ R, matchesFor M r = [] → enrich r none ∈ leftMerge R M :=
  ⟨leftMerge_length R M h,
   fun r hr hm => leftMerge_unmatched R M r hr hm⟩

/-- Evaluation of C1 on a concrete report table and a concrete
duplicate-free mapping table. -/
theorem left_join_preserves_cardinality_witness :
    (sampleM.map mapKey).Nodup
  ∧ ((leftMerge sampleR sampleM).length = sampleR.length
      ∧ ∀ r ∈ sampleR, matchesFor sampleM r = [] →
          enrich r none ∈ leftMerge sampleR sampleM) :=
  ⟨by decide, left_join_preserves_cardinality sampleR sampleM (by decide)⟩

/-- C2: the per-date group sums of impressions, clicks, spend and
Revenue add up to the ungrouped totals, and CTR, CPM and ROAS recomputed
from the grouped sums equal the same ratios recomputed from the
ungrouped sums. -/
theorem grouped_sums_consistent (rows : List ERow) :
    groupTotal ERow.impressions rows = sumCol ERow.impressions rows
  ∧ groupTotal ERow.clicks rows = sumCol ERow.clicks rows
  ∧ groupTotal ERow.spend rows = sumCol ERow.spend rows
  ∧ groupTotal ERow.revenue rows = sumCol ERow.revenue rows
  ∧ ctrOf (groupTotal ERow.clicks rows) (groupTotal ERow.impressions rows)
      = ctrOf (sumCol ERow.clicks rows) (sumCol ERow.impressions rows)
  ∧ cpmOf (groupTotal ERow.spend rows) (groupTotal ERow.impressions rows)
      = cpmOf (sumCol ERow.spend rows) (sumCol ERow.impressions rows)
  ∧ roasOf (groupTotal ERow.revenue rows) (groupTotal ERow.spend rows)
      = roasOf (sumCol ERow.revenue rows) (sumCol ERow.spend rows) := by
  refine ⟨groupTotal_eq_sumCol _ _, groupTotal_eq_sumCol _ _,
    groupTotal_eq_sumCol _ _, groupTotal_eq_sumCol _ _, ?_, ?_, ?_⟩ <;>
    rw [groupTotal_eq_sumCol, groupTotal_eq_sumCol]

/-- C3: for every enriched row, the stored Revenue equals
`round(purchase_roas_factor * spend)` with `spend` the raw value fetched
from the report, before the display rounding of lines 280-283. -/
theorem revenue_from_raw_spend (rows : List ERow) :
    (postprocess rows).map ERow.revenue
      = rows.map (fun r => rndQ (r.roas * r.spend)) :=
  postprocess_revenue_map rows

/-- C4 counterexample: at a row with raw spend 2/5 and ROAS factor 10
the stored Revenue is `round(10 * (2/5)) = 4`, not
`round(10 * round(2/5)) = 0`: Revenue is not derived from the rounded
spend. -/
theorem revenue_not_from_rounded_spend :
    (postprocess [r0]).map ERow.revenue
      ≠ [r0].map (fun r => rndQ (r.roas * rndQ r.spend)) := by
  have h45 : (10 : ℚ) * (2/5) = 4 := by norm_num
  have hL : (postprocess [r0]).map ERow.revenue = [(4 : ℚ)] := by
    rw [postprocess_revenue_map]
    simp [r0, rndQ, h45, rnd_four]
  have hR : [r0].map (fun r => rndQ (r.roas * rndQ r.spend)) = [(0 : ℚ)] := by
    simp [r0, rndQ, rnd_two_fifths, rnd_zero]
  rw [hL, hR]
  simp

/-- C4 (amended): spend is rounded after Revenue is derived, not before:
the stored Revenue equals `round(roas * spend)` on the raw spend and the
stored spend equals `round(spend)`. -/
theorem spend_rounded_after_revenue (rows : List ERow) :
    (postprocess rows).map ERow.revenue
      = rows.map (fun r => rndQ (r.roas * r.spend))
  ∧ (postprocess rows).map ERow.spend = rows.map (fun r => rndQ r.spend) :=
  ⟨postprocess_revenue_map rows, postprocess_spend_map rows⟩

/-- C5: every row of the trailing-7-days window lies in the
trailing-30-days and trailing-90-days windows of the same anchor, and
every row of the yesterday window lies in the trailing-7-days window. -/
theorem window_containment (anchor : ℤ) (rows : List FbRow) (r : FbRow) :
    (r ∈ last7Window anchor rows →
        r ∈ last30Window anchor rows ∧ r ∈ last90Window anchor rows)
  ∧ (r ∈ yesterdayWindow anchor rows → r ∈ last7Window anchor rows) := by
  constructor
  · intro h
    rw [last7Window, List.mem_filter] at h
    have hd : anchor - 7 < r.date ∧ r.date ≤ anchor := by simpa using h.2
    constructor
    · rw [last30Window, List.mem_filter]
      refine ⟨h.1, ?_⟩
      simp only [Bool.and_eq_true, decide_eq_true_eq]
      omega
    · exact h.1
  · intro h
    rw [yesterdayWindow, List.mem_filter] at h
    have hd : r.date = anchor - 1 := by simpa using h.2
    rw [last7Window, List.mem_filter]
    refine ⟨h.1, ?_⟩
    simp only [Bool.and_eq_true, decide_eq_true_eq]
    omega

/-- Evaluation of C5 on a concrete row dated day 9, with anchor day 10. -/
theorem window_containment_witness :
    (rW ∈ last7Window 10 [rW]
      ∧ (rW ∈ last30Window 10 [rW] ∧ rW ∈ last90Window 10 [rW]))
  ∧ (rW ∈ yesterdayWindow 10 [rW] ∧ rW ∈ last7Window 10 [rW]) := by
  have h7 : rW ∈ last7Window 10 [rW] := by decide
  have hy : rW ∈ yesterdayWindow 10 [rW] := by decide
  exact ⟨⟨h7, (window_containment 10 [rW] rW).1 h7⟩,
         ⟨hy, (window_containment 10 [rW] rW).2 hy⟩⟩

/-- C7 counterexample: on a table whose only group has zero summed
impressions (and zero clicks and spend), the emitted CTR and CPM are the
language-native NaN — a non-finite value, not a finite sentinel. -/
theorem ctr_cpm_nan_counterexample :
    (dailyMetrics [z0]).map DailyMetric.ctr = [MetricVal.nan]
  ∧ (dailyMetrics [z0]).map DailyMetric.cpm = [MetricVal.nan]
  ∧ MetricVal.nan.isFinite = false := by
  have hz : dailyMetrics [z0] = [mkDaily 5 [z0]] := by
    simp [dailyMetrics, groupByDate, datesOf, z0]
  have hsum : ∀ f : ERow → ℚ, f z0 = 0 → sumCol f [z0] = 0 := by
    intro f hf
    simp [sumCol, hf]
  refine ⟨?_, ?_, rfl⟩ <;>
    rw [hz] <;>
    simp [mkDaily, ctrOf, cpmOf, hsum ERow.clicks (by simp [z0]),
      hsum ERow.impressions (by simp [z0]), hsum ERow.spend (by simp [z0]),
      fdiv, MetricVal.scale, MetricVal.round2]

/-- C7 (amended): for every group of the metric derivation whose summed
impressions are zero, the emitted CTR and CPM are non-finite (the NaN or
infinity that float division by zero produces), in the daily-metrics
path that surfaces them. -/
theorem zero_impressions_metrics_nonfinite (rows : List ERow)
    (m : DailyMetric) (hm : m ∈ dailyMetrics rows)
    (h0 : m.impressions = 0) :
    m.ctr.isFinite = false ∧ m.cpm.isFinite = false := by
  rw [dailyMetrics] at hm
  rcases List.mem_map.mp hm with ⟨g, _, rfl⟩
  have himp : sumCol ERow.impressions g.2 = 0 := h0
  constructor
  · show (ctrOf (sumCol ERow.clicks g.2) (sumCol ERow.impressions g.2)).isFinite = false
    rw [himp, ctrOf, isFinite_round2]
    exact isFinite_scale_of_nonfinite 100 _ (fdiv_zero_nonfinite _)
  · show (cpmOf (sumCol ERow.spend g.2) (sumCol ERow.impressions g.2)).isFinite = false
    rw [himp, cpmOf, isFinite_round2]
    exact isFinite_scale_of_nonfinite 1000 _ (fdiv_zero_nonfinite _)

/-- Evaluation of C7 (amended) on the concrete zero-impressions table. -/
theorem zero_impressions_metrics_nonfinite_witness :
    (mkDaily 5 [z0] ∈ dailyMetrics [z0] ∧ (mkDaily 5 [z0]).impressions = 0)
  ∧ ((mkDaily 5 [z0]).ctr.isFinite = false
      ∧ (mkDaily 5 [z0]).cpm.isFinite = false) := by
  have hm : mkDaily 5 [z0] ∈ dailyMetrics [z0] := by
    simp [dailyMetrics, groupByDate, datesOf, z0]
  have h0 : (mkDaily 5 [z0]).impressions = 0 := by
    simp [mkDaily, sumCol, z0]
  exact ⟨⟨hm, h0⟩,
    zero_impressions_metrics_nonfinite [z0] (mkDaily 5 [z0]) hm h0⟩

/-- C8: a payload with no non-blank line makes the parser report an
error and return the failure result, and a payload with at least one
non-blank line never takes that error branch. -/
theorem empty_payload_reported_as_error (content : String) :
    (nonBlankLines content = [] → parse_csv_content content = none)
  ∧ (nonBlankLines content ≠ [] → parse_csv_content content ≠ none) := by
  constructor
  · intro h
    rw [parse_csv_content, if_pos (by simpa [List.isEmpty_iff] using h)]
  · intro h
    rw [parse_csv_content, if_neg (by simpa [List.isEmpty_iff] using h)]
    exact Option.some_ne_none _

/-- Evaluation of C8 on a blank-only payload and on a two-line CSV
payload. -/
theorem empty_payload_reported_as_error_witness :
    (nonBlankLines "\n  \n" = [] ∧ parse_csv_content "\n  \n" = none)
  ∧ (nonBlankLines "a,b\n1,2" ≠ [] ∧ parse_csv_content "a,b\n1,2" ≠ none) :=
  ⟨⟨by decide, (empty_payload_reported_as_error "\n  \n").1 (by decide)⟩,
   ⟨by decide, (empty_payload_reported_as_error "a,b\n1,2").2 (by decide)⟩⟩

/-- C9 counterexample: when all three account fetches fail (the loop of
line 191 queries three accounts), `pd.concat` receives an empty list and
raises an uncaught error — the merge does not yield the concatenation of
the successful accounts' tables (which would be the empty table). -/
theorem merge_all_failed_errors :
    combinedReport [none, none, none] = none
  ∧ combinedReport [none, none, none]
      ≠ some ((([none, none, none] : List (Option (List FbRow))).filterMap
          (fun x => x)).flatten) :=
  ⟨by decide, by decide⟩

/-- C9 (amended): when some fetches fail but at least one succeeds, the
multi-account merge yields exactly the concatenation of the successful
accounts' tables in account iteration order, with no placeholder rows;
an individual failed fetch contributes nothing and changes nothing. -/
theorem merge_best_effort_concat_of_success
    (results : List (Option (List FbRow)))
    (h : results.any Option.isSome = true) :
    combinedReport results = some ((results.filterMap (fun x => x)).flatten)
  ∧ ∀ pre post : List (Option (List FbRow)),
      combinedReport (pre ++ none :: post) = combinedReport (pre ++ post) := by
  constructor
  · rw [combinedReport, if_neg (by rw [mergeAccountReports_not_isEmpty results h]; exact Bool.false_ne_true),
        mergeAccountReports_eq_filterMap]
  · intro pre post
    simp [combinedReport, mergeAccountReports_eq_filterMap,
      List.filterMap_append, List.filterMap_cons]

/-- Evaluation of C9 (amended) on one successful and one failed fetch. -/
theorem merge_best_effort_concat_of_success_witness :
    ([some sampleR, none] : List (Option (List FbRow))).any Option.isSome = true
  ∧ (combinedReport [some sampleR, none]
        = some ((([some sampleR, none] : List (Option (List FbRow))).filterMap
            (fun x => x)).flatten)
      ∧ ∀ pre post : List (Option (List FbRow)),
          combinedReport (pre ++ none :: post) = combinedReport (pre ++ post)) :=
  ⟨by decide, merge_best_effort_concat_of_success [some sampleR, none] (by decide)⟩

/-- C10: in the Product-Category View an empty Product Category
selection filters everything out (membership in the empty set is
required, with no universal-true escape), while empty Account and
Campaign selections on the same path are no restriction at all. -/
theorem tab3_empty_category_selection (accSel campSel : List String)
    (startD endD : ℤ) (rows : List ERow) :
    tab3Filter accSel campSel [] startD endD rows = []
  ∧ ∀ prodSel, tab3Filter [] [] prodSel startD endD rows
      = rows.filter (fun r =>
          isinOpt prodSel r.productCat &&
          decide (startD ≤ r.date) && decide (r.date ≤ endD)) := by
  constructor
  · apply List.filter_eq_nil_iff.mpr
    intro r _
    cases hc : r.productCat <;> simp [isinOpt, hc]
  · intro prodSel
    rw [tab3Filter]
    apply List.filter_congr
    intro r _
    simp

end MetaAds
